import Mathlib

/-!
A shallow embedding of `src/python/geometry.py` (meshcat's scene-graph
serialization core) together with theorems checking the natural-language
specification's claims against it.

Python dictionaries are modelled as ordered association lists
(`List (String × α)`) with Python's semantics: assigning to an existing key
replaces the value in place (keeping the key's position), assigning to a
fresh key appends it at the end, and `update` folds assignment over the
entries of the other mapping.

Python exceptions (`ValueError` from the array packer, `IndexError` from
sequence indexing, `AttributeError` from calling `serialize_in_object` on a
non-element) are modelled with `Except SerErr`.
-/

/-- Wire values: the JSON-compatible msgpack universe used by the
serializers, plus the tagged binary extension blob (`umsgpack.Ext`). -/
inductive JValue where
  | str (s : String)
  | num (q : Rat)
  | bool (b : Bool)
  | list (xs : List JValue)
  | obj (fields : List (String × JValue))
  | ext (code : Nat) (data : List Nat)

abbrev Bytes := List Nat

/-- Python dict lookup (first occurrence; keys are unique in real dicts). -/
def dictLookup {α : Type} : List (String × α) → String → Option α
  | [], _ => none
  | (a, b) :: rest, k => if a = k then some b else dictLookup rest k

/-- Python `d[k] = v`: replace the value at an existing key in place,
otherwise append the new entry at the end. -/
def dictInsert {α : Type} : List (String × α) → String → α → List (String × α)
  | [], k, v => [(k, v)]
  | (a, b) :: rest, k, v =>
      if a = k then (k, v) :: rest else (a, b) :: dictInsert rest k v

/-- Python `d.update(ps)`: assign each entry of `ps` into `d` in order. -/
def dictUpdate {α : Type} (d : List (String × α)) (ps : List (String × α)) :
    List (String × α) :=
  ps.foldl (fun acc p => dictInsert acc p.1 p.2) d

/-- `true` when no entry of the mapping uses key `k`. -/
def hasNoKey {α : Type} (d : List (String × α)) (k : String) : Bool :=
  d.all (fun p => ! (p.1 = k : Bool))

/-- The value of the LAST entry with key `k` (what survives a Python
`update` when the update source lists `k` several times). -/
def lookupLast {α : Type} : List (String × α) → String → Option α
  | [], _ => none
  | (a, b) :: rest, k =>
      match lookupLast rest k with
      | some v => some v
      | none => if a = k then some b else none

/-- The base64 alphabet, RFC 4648. -/
def base64Chars : List Char :=
  "ABCDEFGHIJKLMNOPQRSTUVWXYZabcdefghijklmnopqrstuvwxyz0123456789+/".toList

def b64c (n : Nat) : Char := base64Chars.getD n 'A'

/-- `base64.b64encode` on a byte sequence, with `=` padding. -/
def base64Encode : Bytes → String
  | [] => ""
  | [a] => String.mk [b64c (a / 4), b64c (a % 4 * 16), '=', '=']
  | [a, b] => String.mk [b64c (a / 4), b64c (a % 4 * 16 + b / 16), b64c (b % 16 * 4), '=']
  | a :: b :: c :: rest =>
      String.mk [b64c (a / 4), b64c (a % 4 * 16 + b / 16), b64c (b % 16 * 4 + c / 64),
        b64c (c % 64)] ++ base64Encode rest

/-- Numpy element kinds: the four the packer supports plus a sample of
unsupported ones (the packer compares `dtype` against a closed table). -/
inductive DType where
  | uint8 | int32 | uint32 | float32
  | float64 | int64 | int8 | int16 | uint16 | boolKind
deriving DecidableEq

/-- Errors raised by the serializers (Python exceptions). -/
inductive SerErr where
  /-- `ValueError` from `item_size`: rank outside {1, 2}. -/
  | unsupportedArrayRank (ndim : Nat)
  /-- `ValueError` from `threejs_type`: element kind outside the table. -/
  | unsupportedElementKind (d : DType)
  /-- `IndexError` from indexing a too-short sequence. -/
  | indexError
  /-- `AttributeError`: the value under a reserved embedding key is not a
  referenceable element. -/
  | attrError
deriving DecidableEq

/-- A numpy array: its shape, element kind and raw native bytes
(`x.tobytes()`). -/
structure NpArray where
  shape : List Nat
  dtype : DType
  data : Bytes

def NpArray.ndim (a : NpArray) : Nat := a.shape.length

/-- `item_size`: 1 for rank-1 arrays, the first-axis size for rank-2
arrays, `ValueError` otherwise. -/
def item_size (a : NpArray) : Except SerErr Nat :=
  if a.ndim = 1 then .ok 1
  else if a.ndim = 2 then .ok (a.shape.headD 0)
  else .error (.unsupportedArrayRank a.ndim)

/-- `threejs_type`: the fixed dtype table, giving the symbolic type name
and the msgpack extension code. -/
def threejs_type (d : DType) : Except SerErr (String × Nat) :=
  match d with
  | .uint8 => .ok ("Uint8Array", 0x12)
  | .int32 => .ok ("Int32Array", 0x15)
  | .uint32 => .ok ("Uint32Array", 0x16)
  | .float32 => .ok ("Float32Array", 0x17)
  | d => .error (.unsupportedElementKind d)

/-- `pack_numpy_array`: the dtype is looked up first (so an unsupported
dtype wins over an unsupported rank), then the item size, then the block
is assembled. -/
def pack_numpy_array (x : NpArray) : Except SerErr JValue :=
  match threejs_type x.dtype with
  | .error e => .error e
  | .ok (typename, extcode) =>
      match item_size x with
      | .error e => .error e
      | .ok isz =>
          .ok (.obj [("itemSize", .num isz), ("type", .str typename),
            ("array", .ext extcode x.data), ("normalized", .bool false)])

/-- `PngImage`: an inline-encoded raster image (category `images`). -/
structure PngImage where
  uuid : String
  data : Bytes

/-- A value in a `GenericTexture`'s property mapping: either a plain wire
value or an embedded image object (the value a caller put under the
reserved key `image`). -/
inductive TexProp where
  | val (v : JValue)
  | img (i : PngImage)

/-- A serialized texture record: its dict may still hold a raw image
object under a non-reserved key, exactly as in Python. -/
abbrev TexRec := List (String × TexProp)

/-- The texture variants (category `textures`). `imageTex` is the source's
`ImageTexture` (its `repeat` field is named `rep`; the emitted key is
still `"repeat"`). -/
inductive Texture where
  | generic (uuid : String) (properties : List (String × TexProp))
  | imageTex (uuid : String) (image : PngImage) (wrap : JValue) (rep : JValue)
      (properties : List (String × JValue))

def Texture.uuid : Texture → String
  | .generic u _ => u
  | .imageTex u _ _ _ _ => u

/-- A value in a `GenericMaterial`'s property mapping: a plain wire value
or an embedded texture object (under the reserved key `map`). -/
inductive MatProp where
  | val (v : JValue)
  | tex (t : Texture)

/-- A serialized material record. -/
abbrev MatRec := List (String × MatProp)

/-- The material variants (category `materials`). `mesh` covers the four
`MeshMaterial` subclasses, whose only difference is the `_type` string. -/
inductive Material where
  | mesh (uuid : String) (mtype : String) (color : JValue) (reflectivity : JValue)
      (map : Option Texture) (properties : List (String × JValue))
  | generic (uuid : String) (properties : List (String × MatProp))
  | pointsMat (uuid : String) (size : JValue) (color : JValue)

def Material.uuid : Material → String
  | .mesh u _ _ _ _ _ => u
  | .generic u _ => u
  | .pointsMat u _ _ => u

/-- `MeshBasicMaterial(color=c)`: defaults `reflectivity=0.5`, `map=None`,
no extra properties. -/
def MeshBasicMaterial.ofColor (u : String) (c : Rat) : Material :=
  .mesh u "MeshBasicMaterial" (.num c) (.num (1/2)) none []

/-- The geometry variants (category `geometries`). -/
inductive Geometry where
  | box (uuid : String) (lengths : List JValue)
  | objMesh (uuid : String) (contents : String)
  | pointsGeo (uuid : String) (points : NpArray) (color : Option NpArray)

def Geometry.uuid : Geometry → String
  | .box u _ => u
  | .objMesh u _ => u
  | .pointsGeo u _ _ => u

/-- A serialized geometry record (all plain wire values). -/
abbrev GeoRec := List (String × JValue)

/-- A serialized image record. -/
abbrev ImgRec := List (String × JValue)

/-- The `object_data` dict threaded through serialization: Python uses one
dict holding `metadata`, `object` and the category lists; a category key
is `none` until some element's `setdefault` first creates it. -/
structure SceneDoc where
  metadata : List (String × JValue)
  geometries : Option (List GeoRec)
  materials : Option (List MatRec)
  textures : Option (List TexRec)
  images : Option (List ImgRec)
  object : List (String × JValue)

/-- `object_data.setdefault("geometries", [])` (key creation only). -/
def SceneDoc.ensureGeo (d : SceneDoc) : SceneDoc :=
  { d with geometries := some (d.geometries.getD []) }

def SceneDoc.ensureMat (d : SceneDoc) : SceneDoc :=
  { d with materials := some (d.materials.getD []) }

def SceneDoc.ensureTex (d : SceneDoc) : SceneDoc :=
  { d with textures := some (d.textures.getD []) }

def SceneDoc.ensureImg (d : SceneDoc) : SceneDoc :=
  { d with images := some (d.images.getD []) }

/-- `.append(record)` on the list a `setdefault` returned. -/
def SceneDoc.appendGeo (d : SceneDoc) (r : GeoRec) : SceneDoc :=
  { d with geometries := some (d.geometries.getD [] ++ [r]) }

def SceneDoc.appendMat (d : SceneDoc) (r : MatRec) : SceneDoc :=
  { d with materials := some (d.materials.getD [] ++ [r]) }

def SceneDoc.appendTex (d : SceneDoc) (r : TexRec) : SceneDoc :=
  { d with textures := some (d.textures.getD [] ++ [r]) }

def SceneDoc.appendImg (d : SceneDoc) (r : ImgRec) : SceneDoc :=
  { d with images := some (d.images.getD [] ++ [r]) }

/-- `PngImage.serialize`: the record with the data-URI payload. -/
def PngImage.serialize (i : PngImage) : ImgRec :=
  [("uuid", .str i.uuid),
   ("url", .str ("data:image/png;base64," ++ base64Encode i.data))]

/-- `serialize_in_object` for an image: `setdefault` the `images` list,
serialize, append, return the uuid. -/
def PngImage.serialize_in_object (i : PngImage) (d : SceneDoc) : String × SceneDoc :=
  (i.uuid, (d.ensureImg).appendImg i.serialize)

/-- `GenericTexture.serialize`: start from a fresh dict `{"uuid": ...}`,
`update` with the properties, then if the result holds an image under the
reserved key `image`, flatten it and substitute its identifier. The third
component returns `self.properties` as the method leaves them (the source
never assigns to `self.properties`; all writes go to the fresh dict). -/
def GenericTexture.serialize (u : String) (props : List (String × TexProp))
    (d : SceneDoc) : Except SerErr (TexRec × SceneDoc × List (String × TexProp)) :=
  let data := dictUpdate [("uuid", TexProp.val (.str u))] props
  match dictLookup data "image" with
  | some (.img i) =>
      let (iu, d') := i.serialize_in_object d
      .ok (dictInsert data "image" (.val (.str iu)), d', props)
  | some (.val _) => .error .attrError
  | none => .ok (data, d, props)

/-- `ImageTexture.serialize`: the fixed record (flattening the image while
building it), then `update` with the extra properties. -/
def ImageTexture.serialize (u : String) (img : PngImage) (wrap : JValue)
    (rep : JValue) (props : List (String × JValue)) (d : SceneDoc) :
    TexRec × SceneDoc :=
  let (iu, d') := img.serialize_in_object d
  let data : TexRec := [("uuid", .val (.str u)), ("wrap", .val wrap),
    ("repeat", .val rep), ("image", .val (.str iu))]
  (dictUpdate data (props.map (fun p => (p.1, TexProp.val p.2))), d')

def Texture.serialize (t : Texture) (d : SceneDoc) :
    Except SerErr (TexRec × SceneDoc) :=
  match t with
  | .generic u props =>
      match GenericTexture.serialize u props d with
      | .ok (r, d', _) => .ok (r, d')
      | .error e => .error e
  | .imageTex u img wrap rep props => .ok (ImageTexture.serialize u img wrap rep props d)

/-- `serialize_in_object` for a texture. -/
def Texture.serialize_in_object (t : Texture) (d : SceneDoc) :
    Except SerErr (String × SceneDoc) :=
  match t.serialize d.ensureTex with
  | .ok (r, d1) => .ok (t.uuid, d1.appendTex r)
  | .error e => .error e

/-- `GenericMaterial.serialize`: like `GenericTexture.serialize` with
reserved key `map` holding a texture; again the third component is the
untouched `self.properties`. -/
def GenericMaterial.serialize (u : String) (props : List (String × MatProp))
    (d : SceneDoc) : Except SerErr (MatRec × SceneDoc × List (String × MatProp)) :=
  let data := dictUpdate [("uuid", MatProp.val (.str u))] props
  match dictLookup data "map" with
  | some (.tex t) =>
      match t.serialize_in_object d with
      | .ok (tu, d') => .ok (dictInsert data "map" (.val (.str tu)), d', props)
      | .error e => .error e
  | some (.val _) => .error .attrError
  | none => .ok (data, d, props)

/-- `MeshMaterial.serialize`: reserved fields, then `update` with the
extras, then (only when a texture map is present) flatten it and assign
`data["map"]` last. -/
def MeshMaterial.serialize (u : String) (mtype : String) (color : JValue)
    (reflectivity : JValue) (map : Option Texture)
    (props : List (String × JValue)) (d : SceneDoc) :
    Except SerErr (MatRec × SceneDoc) :=
  let data : MatRec := [("uuid", .val (.str u)), ("type", .val (.str mtype)),
    ("color", .val color), ("reflectivity", .val reflectivity)]
  let data1 := dictUpdate data (props.map (fun p => (p.1, MatProp.val p.2)))
  match map with
  | none => .ok (data1, d)
  | some t =>
      match t.serialize_in_object d with
      | .ok (tu, d') => .ok (dictInsert data1 "map" (.val (.str tu)), d')
      | .error e => .error e

def Material.serialize (m : Material) (d : SceneDoc) :
    Except SerErr (MatRec × SceneDoc) :=
  match m with
  | .mesh u mtype color reflectivity map props =>
      MeshMaterial.serialize u mtype color reflectivity map props d
  | .generic u props =>
      match GenericMaterial.serialize u props d with
      | .ok (r, d', _) => .ok (r, d')
      | .error e => .error e
  | .pointsMat u size color =>
      .ok ([("uuid", .val (.str u)), ("type", .val (.str "PointsMaterial")),
        ("color", .val color), ("size", .val size),
        ("vertexColors", .val (.num 2))], d)

/-- `serialize_in_object` for a material. -/
def Material.serialize_in_object (m : Material) (d : SceneDoc) :
    Except SerErr (String × SceneDoc) :=
  match m.serialize d.ensureMat with
  | .ok (r, d1) => .ok (m.uuid, d1.appendMat r)
  | .error e => .error e

/-- `self.lengths[i]` (raises `IndexError` when too short). -/
def seqIndex (xs : List JValue) (i : Nat) : Except SerErr JValue :=
  match xs.get? i with
  | some v => .ok v
  | none => .error .indexError

def Geometry.serialize (g : Geometry) : Except SerErr GeoRec :=
  match g with
  | .box u lengths =>
      match seqIndex lengths 0 with
      | .error e => .error e
      | .ok w =>
          match seqIndex lengths 1 with
          | .error e => .error e
          | .ok h =>
              match seqIndex lengths 2 with
              | .error e => .error e
              | .ok dep =>
                  .ok [("uuid", .str u), ("type", .str "BoxGeometry"),
                    ("width", w), ("height", h), ("depth", dep)]
  | .objMesh u contents =>
      .ok [("type", .str "_meshfile"), ("uuid", .str u),
        ("format", .str "obj"), ("data", .str contents)]
  | .pointsGeo u points color =>
      match pack_numpy_array points with
      | .error e => .error e
      | .ok pb =>
          match color with
          | none =>
              .ok [("uuid", .str u), ("type", .str "BufferGeometry"),
                ("data", .obj [("attributes", .obj [("position", pb)])])]
          | some c =>
              match pack_numpy_array c with
              | .error e => .error e
              | .ok cb =>
                  .ok [("uuid", .str u), ("type", .str "BufferGeometry"),
                    ("data", .obj [("attributes",
                      .obj [("position", pb), ("color", cb)])])]

/-- `serialize_in_object` for a geometry. -/
def Geometry.serialize_in_object (g : Geometry) (d : SceneDoc) :
    Except SerErr (String × SceneDoc) :=
  match g.serialize with
  | .ok r => .ok (g.uuid, (d.ensureGeo).appendGeo r)
  | .error e => .error e

/-- A renderable `Object` (its `_type` is `"Mesh"` for `Mesh`, `"Points"`
for `Points`). -/
structure Obj where
  uuid : String
  otype : String
  geometry : Geometry
  material : Material

def Mesh (u : String) (g : Geometry) (m : Material) : Obj := ⟨u, "Mesh", g, m⟩

def Points (u : String) (g : Geometry) (m : Material) : Obj := ⟨u, "Points", g, m⟩

/-- The dict `Object.serialize` builds before flattening anything: only
the `geometries` and `materials` category lists are initialized (empty);
`textures` and `images` appear later only via `setdefault`. -/
def Obj.initData (o : Obj) : SceneDoc :=
  { metadata := [("version", .num (9/2)), ("type", .str "Object")],
    geometries := some [],
    materials := some [],
    textures := none,
    images := none,
    object := [("uuid", .str o.uuid), ("type", .str o.otype),
      ("geometry", .str o.geometry.uuid), ("material", .str o.material.uuid)] }

/-- `Object.serialize` / `compose_document`: flatten the geometry into the
fresh dict, then the material, and return the dict. -/
def Obj.serialize (o : Obj) : Except SerErr SceneDoc :=
  match o.geometry.serialize_in_object o.initData with
  | .error e => .error e
  | .ok (_, d1) =>
      match o.material.serialize_in_object d1 with
      | .error e => .error e
      | .ok (_, d2) => .ok d2

/-- A referenceable element of any of the four categories, for stating the
`serialize_in_object` contract uniformly. -/
inductive RElem where
  | geo (g : Geometry)
  | mat (m : Material)
  | tex (t : Texture)
  | img (i : PngImage)

def RElem.uuid : RElem → String
  | .geo g => g.uuid
  | .mat m => m.uuid
  | .tex t => t.uuid
  | .img i => i.uuid

def RElem.serialize_in_object : RElem → SceneDoc → Except SerErr (String × SceneDoc)
  | .geo g, d => g.serialize_in_object d
  | .mat m, d => m.serialize_in_object d
  | .tex t, d => t.serialize_in_object d
  | .img i, d => .ok (i.serialize_in_object d)

/-- The scene-mutation commands. -/
inductive Command where
  | setObject (object : Obj) (path : JValue)
  | setTransform (position : JValue) (quaternion : JValue) (path : JValue)

/-- `SetObject(object)` with the `path` argument omitted. -/
def setObjectDefaultPath (o : Obj) : Command := .setObject o (.list [])

/-- `SetTransform(position, quaternion)` with the `path` argument omitted. -/
def setTransformDefaultPath (p q : JValue) : Command := .setTransform p q (.list [])

def Command.pathArg : Command → JValue
  | .setObject _ p => p
  | .setTransform _ _ p => p

/-- A serialized command record; `set_object` holds a whole scene document
under its `object` key. -/
inductive CmdVal where
  | j (v : JValue)
  | doc (d : SceneDoc)

abbrev CmdRec := List (String × CmdVal)

def Command.serialize : Command → Except SerErr CmdRec
  | .setObject o path =>
      match o.serialize with
      | .error e => .error e
      | .ok d =>
          .ok [("type", .j (.str "set_object")), ("object", .doc d), ("path", .j path)]
  | .setTransform position quaternion path =>
      .ok [("type", .j (.str "set_transform")), ("path", .j path),
        ("position", .j position), ("quaternion", .j quaternion)]

/-- `ViewerMessage.serialize`: the `{"commands": [...]}` envelope, prior
to msgpack encoding. -/
def ViewerMessage.serialize (commands : List Command) :
    Except SerErr (List (String × List CmdRec)) :=
  match commands.mapM Command.serialize with
  | .error e => .error e
  | .ok recs => .ok [("commands", recs)]

/-- `new` is `old` with zero or more records appended (and a category list,
once created, is never removed). -/
def OptListExtend {α : Type} : Option (List α) → Option (List α) → Prop
  | none, _ => True
  | some l, some l2 => ∃ s, l2 = l ++ s
  | some _, none => False

def Texture.noUuidOverride : Texture → Bool
  | .generic _ props => hasNoKey props "uuid"
  | .imageTex _ _ _ _ props => hasNoKey props "uuid"

def Material.noUuidOverride : Material → Bool
  | .mesh _ _ _ _ _ props => hasNoKey props "uuid"
  | .generic _ props => hasNoKey props "uuid"
  | .pointsMat _ _ _ => true

/-- Discriminates a rank error from every other packer outcome. -/
def isRankError : Except SerErr JValue → Bool
  | .error (.unsupportedArrayRank _) => true
  | _ => false

/-- The C1 scenario: a mesh whose generic material embeds a generic
texture under `map`, which embeds a png image under `image`. -/
def c1Obj : Obj :=
  Mesh "o1" (.box "g1" [.num 1, .num 2, .num 3])
    (.generic "m1" [("map", .tex (.generic "t1" [("image", .img ⟨"i1", [1, 2, 3]⟩)]))])

/-- What `Object.serialize` actually produces for `c1Obj`. -/
def c1Doc : SceneDoc :=
  { metadata := [("version", .num (9/2)), ("type", .str "Object")],
    geometries := some [[("uuid", .str "g1"), ("type", .str "BoxGeometry"),
      ("width", .num 1), ("height", .num 2), ("depth", .num 3)]],
    materials := some [[("uuid", .val (.str "m1")), ("map", .val (.str "t1"))]],
    textures := some [[("uuid", .val (.str "t1")), ("image", .val (.str "i1"))]],
    images := some [[("uuid", .str "i1"),
      ("url", .str ("data:image/png;base64," ++ base64Encode [1, 2, 3]))]],
    object := [("uuid", .str "o1"), ("type", .str "Mesh"),
      ("geometry", .str "g1"), ("material", .str "m1")] }

/-- A plain mesh object used as a concrete input. -/
def exObj : Obj :=
  Mesh "o1" (.box "g1" [.num 1, .num 2, .num 3]) (MeshBasicMaterial.ofColor "m1" 0xff0000)

/-- The concrete document `exObj` serializes to. -/
def exDoc : SceneDoc :=
  { metadata := [("version", .num (9/2)), ("type", .str "Object")],
    geometries := some [[("uuid", .str "g1"), ("type", .str "BoxGeometry"),
      ("width", .num 1), ("height", .num 2), ("depth", .num 3)]],
    materials := some [[("uuid", .val (.str "m1")),
      ("type", .val (.str "MeshBasicMaterial")),
      ("color", .val (.num 16711680)), ("reflectivity", .val (.num (1/2)))]],
    textures := none,
    images := none,
    object := [("uuid", .str "o1"), ("type", .str "Mesh"),
      ("geometry", .str "g1"), ("material", .str "m1")] }

/-- `true` when the element's free-form property mapping (if it has one)
does not shadow the reserved `uuid` key of its record. -/
def RElem.noUuidOverride : RElem → Bool
  | .geo _ => true
  | .mat m => m.noUuidOverride
  | .tex t => t.noUuidOverride
  | .img _ => true

/-- Exactly one record was appended to the element's own category list,
as its last element, and that record's `uuid` field is the element's
identifier. -/
def appendedOwnRecord (e : RElem) (d d' : SceneDoc) : Prop :=
  match e with
  | .geo g => ∃ r, d'.geometries = some (d.geometries.getD [] ++ [r]) ∧
      dictLookup r "uuid" = some (.str g.uuid)
  | .mat m => ∃ r, d'.materials = some (d.materials.getD [] ++ [r]) ∧
      dictLookup r "uuid" = some (.val (.str m.uuid))
  | .tex t => ∃ r, d'.textures = some (d.textures.getD [] ++ [r]) ∧
      dictLookup r "uuid" = some (.val (.str t.uuid))
  | .img i => ∃ r, d'.images = some (d.images.getD [] ++ [r]) ∧
      dictLookup r "uuid" = some (.str i.uuid)

/-- The flattening call only ever appends to the accumulator: `metadata`
and `object` are untouched and every category list (child categories
included) is extended, never shrunk or replaced. -/
def accumulatorExtended (d d' : SceneDoc) : Prop :=
  d'.metadata = d.metadata ∧ d'.object = d.object ∧
  OptListExtend d.geometries d'.geometries ∧
  OptListExtend d.materials d'.materials ∧
  OptListExtend d.textures d'.textures ∧
  OptListExtend d.images d'.images

/-- An arbitrary accumulator to exercise `serialize_in_object` on. -/
def c7Start : SceneDoc := ⟨[], none, none, none, none, []⟩

/-- The generic material whose property mapping shadows `uuid`. -/
def c7Elem : RElem := .mat (.generic "m1" [("uuid", .val (.str "evil"))])

theorem dictLookup_dictInsert_self {α : Type} (l : List (String × α)) (k : String) (v : α) :
    dictLookup (dictInsert l k v) k = some v := by
  induction l with
  | nil => simp [dictInsert, dictLookup]
  | cons p rest ih =>
      obtain ⟨a, b⟩ := p
      by_cases h : a = k <;> simp [dictInsert, dictLookup, h, ih]

theorem dictLookup_dictInsert_ne {α : Type} (l : List (String × α)) (k k' : String)
    (v : α) (h : k ≠ k') :
    dictLookup (dictInsert l k v) k' = dictLookup l k' := by
  induction l with
  | nil => simp [dictInsert, dictLookup, h]
  | cons p rest ih =>
      obtain ⟨a, b⟩ := p
      by_cases hak : a = k
      · subst hak
        simp [dictInsert, dictLookup, h]
      · simp [dictInsert, dictLookup, hak, ih]

theorem dictLookup_dictUpdate_not_mem {α : Type} (ps l : List (String × α)) (k : String)
    (h : ∀ p ∈ ps, p.1 ≠ k) :
    dictLookup (dictUpdate l ps) k = dictLookup l k := by
  induction ps generalizing l with
  | nil => rfl
  | cons p rest ih =>
      have hstep : dictUpdate l (p :: rest) = dictUpdate (dictInsert l p.1 p.2) rest := rfl
      rw [hstep, ih _ (fun q hq => h q (List.mem_cons_of_mem _ hq)),
        dictLookup_dictInsert_ne _ _ _ _ (h p (List.mem_cons_self _ _))]

theorem dictLookup_dictUpdate_of_lookup {α : Type} (ps l : List (String × α)) (k : String)
    (v : α) (hnd : (ps.map Prod.fst).Nodup) (h : dictLookup ps k = some v) :
    dictLookup (dictUpdate l ps) k = some v := by
  induction ps generalizing l with
  | nil => simp [dictLookup] at h
  | cons p rest ih =>
      obtain ⟨a, b⟩ := p
      simp only [List.map_cons, List.nodup_cons, List.mem_map] at hnd
      by_cases hak : a = k
      · subst hak
        simp only [dictLookup, if_pos rfl] at h
        cases h
        have hrest : ∀ q ∈ rest, q.1 ≠ a := by
          intro q hq hqa
          exact hnd.1 ⟨q, hq, hqa⟩
        have hstep : dictUpdate l ((a, v) :: rest) = dictUpdate (dictInsert l a v) rest := rfl
        rw [hstep, dictLookup_dictUpdate_not_mem _ _ _ hrest,
          dictLookup_dictInsert_self]
      · simp only [dictLookup, if_neg hak] at h
        exact ih _ hnd.2 h

theorem hasNoKey_forall {α : Type} (ps : List (String × α)) (k : String)
    (h : hasNoKey ps k = true) : ∀ p ∈ ps, p.1 ≠ k := by
  intro p hp
  have := List.all_eq_true.mp h p hp
  simpa using this

theorem OptListExtend.rfl {α : Type} (o : Option (List α)) : OptListExtend o o := by
  cases o with
  | none => trivial
  | some l => exact ⟨[], by simp⟩

theorem OptListExtend.push {α : Type} (o : Option (List α)) (s : List α) :
    OptListExtend o (some (o.getD [] ++ s)) := by
  cases o with
  | none => trivial
  | some l => exact ⟨s, by simp⟩

theorem img_sio_ok (i : PngImage) (d : SceneDoc) :
    i.serialize_in_object d =
      (i.uuid, { d with images := some (d.images.getD [] ++ [i.serialize]) }) := rfl

theorem tex_sio_ok (t : Texture) (d : SceneDoc) (u : String) (d' : SceneDoc)
    (h : t.serialize_in_object d = .ok (u, d')) :
    u = t.uuid ∧ d'.metadata = d.metadata ∧ d'.object = d.object ∧
    d'.geometries = d.geometries ∧ d'.materials = d.materials ∧
    (∃ r, d'.textures = some (d.textures.getD [] ++ [r]) ∧
      (t.noUuidOverride = true → dictLookup r "uuid" = some (.val (.str t.uuid)))) ∧
    OptListExtend d.images d'.images := by
  cases t with
  | generic tu props =>
      rcases hm : dictLookup (dictUpdate [("uuid", TexProp.val (.str tu))] props) "image"
        with _ | tp
      · simp only [Texture.serialize_in_object, Texture.serialize,
          GenericTexture.serialize, hm] at h
        obtain ⟨rfl, rfl⟩ := Prod.mk.injEq .. ▸ (Except.ok.inj h)
        refine ⟨rfl, rfl, rfl, rfl, rfl, ⟨_, rfl, ?_⟩, OptListExtend.rfl _⟩
        intro hno
        rw [dictLookup_dictUpdate_not_mem _ _ _ (hasNoKey_forall _ _ hno)]
        rfl
      · cases tp with
        | val v =>
            simp only [Texture.serialize_in_object, Texture.serialize,
              GenericTexture.serialize, hm] at h
            exact Except.noConfusion h
        | img i =>
            simp only [Texture.serialize_in_object, Texture.serialize,
              GenericTexture.serialize, hm, PngImage.serialize_in_object] at h
            obtain ⟨rfl, rfl⟩ := Prod.mk.injEq .. ▸ (Except.ok.inj h)
            refine ⟨rfl, rfl, rfl, rfl, rfl, ⟨_, rfl, ?_⟩, ?_⟩
            · intro hno
              rw [dictLookup_dictInsert_ne _ _ _ _ (by decide),
                dictLookup_dictUpdate_not_mem _ _ _ (hasNoKey_forall _ _ hno)]
              rfl
            · exact OptListExtend.push _ _
  | imageTex tu img wrap rep props =>
      simp only [Texture.serialize_in_object, Texture.serialize,
        ImageTexture.serialize, PngImage.serialize_in_object] at h
      obtain ⟨rfl, rfl⟩ := Prod.mk.injEq .. ▸ (Except.ok.inj h)
      refine ⟨rfl, rfl, rfl, rfl, rfl, ⟨_, rfl, ?_⟩, OptListExtend.push _ _⟩
      intro hno
      have hprops : ∀ p ∈ props.map (fun p => (p.1, TexProp.val p.2)), p.1 ≠ "uuid" := by
        intro p hp
        obtain ⟨q, hq, rfl⟩ := List.mem_map.mp hp
        exact hasNoKey_forall _ _ hno q hq
      rw [dictLookup_dictUpdate_not_mem _ _ _ hprops]
      rfl

theorem mat_sio_ok (m : Material) (d : SceneDoc) (u : String) (d' : SceneDoc)
    (h : m.serialize_in_object d = .ok (u, d')) :
    u = m.uuid ∧ d'.metadata = d.metadata ∧ d'.object = d.object ∧
    d'.geometries = d.geometries ∧
    (∃ r, d'.materials = some (d.materials.getD [] ++ [r]) ∧
      (m.noUuidOverride = true → dictLookup r "uuid" = some (.val (.str m.uuid)))) ∧
    OptListExtend d.textures d'.textures ∧ OptListExtend d.images d'.images := by
  cases m with
  | pointsMat mu size color =>
      simp only [Material.serialize_in_object, Material.serialize] at h
      obtain ⟨rfl, rfl⟩ := Prod.mk.injEq .. ▸ (Except.ok.inj h)
      exact ⟨rfl, rfl, rfl, rfl, ⟨_, rfl, fun _ => rfl⟩,
        OptListExtend.rfl _, OptListExtend.rfl _⟩
  | mesh mu mtype color refl map props =>
      cases map with
      | none =>
          simp only [Material.serialize_in_object, Material.serialize,
            MeshMaterial.serialize] at h
          obtain ⟨rfl, rfl⟩ := Prod.mk.injEq .. ▸ (Except.ok.inj h)
          refine ⟨rfl, rfl, rfl, rfl, ⟨_, rfl, ?_⟩, OptListExtend.rfl _, OptListExtend.rfl _⟩
          intro hno
          have hprops : ∀ p ∈ props.map (fun p => (p.1, MatProp.val p.2)), p.1 ≠ "uuid" := by
            intro p hp
            obtain ⟨q, hq, rfl⟩ := List.mem_map.mp hp
            exact hasNoKey_forall _ _ hno q hq
          rw [dictLookup_dictUpdate_not_mem _ _ _ hprops]
          rfl
      | some t =>
          rcases ht : t.serialize_in_object d.ensureMat with e | ⟨tu, dt⟩
          · simp only [Material.serialize_in_object, Material.serialize,
              MeshMaterial.serialize, ht] at h
            exact Except.noConfusion h
          · simp only [Material.serialize_in_object, Material.serialize,
              MeshMaterial.serialize, ht] at h
            obtain ⟨rfl, rfl⟩ := Prod.mk.injEq .. ▸ (Except.ok.inj h)
            obtain ⟨-, hmet, hobj, hgeo, hmats, ⟨rt, htex, -⟩, himg⟩ := tex_sio_ok _ _ _ _ ht
            have happ : ∀ r : MatRec, (dt.appendMat r).materials =
                some (d.materials.getD [] ++ [r]) := by
              intro r
              show some (dt.materials.getD [] ++ [r]) = _
              rw [hmats]
              rfl
            refine ⟨rfl, hmet, hobj, hgeo, ?_, ?_, himg⟩
            · refine ⟨_, happ _, ?_⟩
              intro hno
              have hprops : ∀ p ∈ props.map (fun p => (p.1, MatProp.val p.2)),
                  p.1 ≠ "uuid" := by
                intro p hp
                obtain ⟨q, hq, rfl⟩ := List.mem_map.mp hp
                exact hasNoKey_forall _ _ hno q hq
              rw [dictLookup_dictInsert_ne _ _ _ _ (by decide),
                dictLookup_dictUpdate_not_mem _ _ _ hprops]
              rfl
            · show OptListExtend d.textures dt.textures
              rw [htex]
              exact OptListExtend.push _ _
  | generic mu props =>
      rcases hm : dictLookup (dictUpdate [("uuid", MatProp.val (.str mu))] props) "map"
        with _ | mp
      · simp only [Material.serialize_in_object, Material.serialize,
          GenericMaterial.serialize, hm] at h
        obtain ⟨rfl, rfl⟩ := Prod.mk.injEq .. ▸ (Except.ok.inj h)
        refine ⟨rfl, rfl, rfl, rfl, ⟨_, rfl, ?_⟩, OptListExtend.rfl _, OptListExtend.rfl _⟩
        intro hno
        rw [dictLookup_dictUpdate_not_mem _ _ _ (hasNoKey_forall _ _ hno)]
        rfl
      · cases mp with
        | val v =>
            simp only [Material.serialize_in_object, Material.serialize,
              GenericMaterial.serialize, hm] at h
            exact Except.noConfusion h
        | tex t =>
            rcases ht : t.serialize_in_object d.ensureMat with e | ⟨tu, dt⟩
            · simp only [Material.serialize_in_object, Material.serialize,
                GenericMaterial.serialize, hm, ht] at h
              exact Except.noConfusion h
            · simp only [Material.serialize_in_object, Material.serialize,
                GenericMaterial.serialize, hm, ht] at h
              obtain ⟨rfl, rfl⟩ := Prod.mk.injEq .. ▸ (Except.ok.inj h)
              obtain ⟨-, hmet, hobj, hgeo, hmats, ⟨rt, htex, -⟩, himg⟩ := tex_sio_ok _ _ _ _ ht
              have happ : ∀ r : MatRec, (dt.appendMat r).materials =
                  some (d.materials.getD [] ++ [r]) := by
                intro r
                show some (dt.materials.getD [] ++ [r]) = _
                rw [hmats]
                rfl
              refine ⟨rfl, hmet, hobj, hgeo, ?_, ?_, himg⟩
              · refine ⟨_, happ _, ?_⟩
                intro hno
                rw [dictLookup_dictInsert_ne _ _ _ _ (by decide),
                  dictLookup_dictUpdate_not_mem _ _ _ (hasNoKey_forall _ _ hno)]
                rfl
              · show OptListExtend d.textures dt.textures
                rw [htex]
                exact OptListExtend.push _ _

theorem geo_sio_ok (g : Geometry) (d : SceneDoc) (u : String) (d' : SceneDoc)
    (h : g.serialize_in_object d = .ok (u, d')) :
    u = g.uuid ∧ d'.metadata = d.metadata ∧ d'.object = d.object ∧
    (∃ r, d'.geometries = some (d.geometries.getD [] ++ [r]) ∧
      dictLookup r "uuid" = some (.str g.uuid)) ∧
    d'.materials = d.materials ∧ d'.textures = d.textures ∧ d'.images = d.images := by
  cases g with
  | box gu lengths =>
      rcases h0 : seqIndex lengths 0 with e | w
      · simp only [Geometry.serialize_in_object, Geometry.serialize, h0] at h
        exact Except.noConfusion h
      · rcases h1 : seqIndex lengths 1 with e | hh
        · simp only [Geometry.serialize_in_object, Geometry.serialize, h0, h1] at h
          exact Except.noConfusion h
        · rcases h2 : seqIndex lengths 2 with e | dep
          · simp only [Geometry.serialize_in_object, Geometry.serialize, h0, h1, h2] at h
            exact Except.noConfusion h
          · simp only [Geometry.serialize_in_object, Geometry.serialize, h0, h1, h2] at h
            obtain ⟨rfl, rfl⟩ := Prod.mk.injEq .. ▸ (Except.ok.inj h)
            exact ⟨rfl, rfl, rfl, ⟨_, rfl, rfl⟩, rfl, rfl, rfl⟩
  | objMesh gu contents =>
      simp only [Geometry.serialize_in_object, Geometry.serialize] at h
      obtain ⟨rfl, rfl⟩ := Prod.mk.injEq .. ▸ (Except.ok.inj h)
      exact ⟨rfl, rfl, rfl, ⟨_, rfl, rfl⟩, rfl, rfl, rfl⟩
  | pointsGeo gu points color =>
      rcases hp : pack_numpy_array points with e | pb
      · simp only [Geometry.serialize_in_object, Geometry.serialize, hp] at h
        exact Except.noConfusion h
      · cases color with
        | none =>
            simp only [Geometry.serialize_in_object, Geometry.serialize, hp] at h
            obtain ⟨rfl, rfl⟩ := Prod.mk.injEq .. ▸ (Except.ok.inj h)
            exact ⟨rfl, rfl, rfl, ⟨_, rfl, rfl⟩, rfl, rfl, rfl⟩
        | some c =>
            rcases hc : pack_numpy_array c with e | cb
            · simp only [Geometry.serialize_in_object, Geometry.serialize, hp, hc] at h
              exact Except.noConfusion h
            · simp only [Geometry.serialize_in_object, Geometry.serialize, hp, hc] at h
              obtain ⟨rfl, rfl⟩ := Prod.mk.injEq .. ▸ (Except.ok.inj h)
              exact ⟨rfl, rfl, rfl, ⟨_, rfl, rfl⟩, rfl, rfl, rfl⟩

/-- Claim C3, counterexample: a rank-3 array whose element kind is also
unsupported does NOT fail with the rank error — the element-kind check
runs first, so the packer reports `unsupportedElementKind` instead. -/
theorem c3_counterexample :
    NpArray.ndim ⟨[2, 2, 2], .float64, []⟩ = 3 ∧
    isRankError (pack_numpy_array ⟨[2, 2, 2], .float64, []⟩) = false ∧
    pack_numpy_array ⟨[2, 2, 2], .float64, []⟩ =
      .error (.unsupportedElementKind .float64) :=
  ⟨rfl, rfl, rfl⟩

/-- Claim C3, amended: any unsupported element kind makes the packer fail
with `unsupportedElementKind` (whatever the rank); a rank of 3 or more
with a SUPPORTED element kind makes it fail with `unsupportedArrayRank`;
an `Except.error` result carries no partial block. -/
theorem c3_amended (a : NpArray) :
    ((threejs_type a.dtype).isOk = false →
      pack_numpy_array a = .error (.unsupportedElementKind a.dtype)) ∧
    ((threejs_type a.dtype).isOk = true → 3 ≤ a.ndim →
      pack_numpy_array a = .error (.unsupportedArrayRank a.ndim)) := by
  obtain ⟨shape, dtype, data⟩ := a
  constructor
  · intro hbad
    cases dtype <;> simp_all [threejs_type, pack_numpy_array, Except.isOk, Except.toBool]
  · intro hgood hrank
    have h1 : ¬ (NpArray.ndim ⟨shape, dtype, data⟩ = 1) := by omega
    have h2 : ¬ (NpArray.ndim ⟨shape, dtype, data⟩ = 2) := by omega
    cases dtype <;>
      simp_all [threejs_type, pack_numpy_array, item_size, Except.isOk, Except.toBool]

theorem c3_witness :
    ((threejs_type (NpArray.dtype ⟨[2, 2, 2], .float64, []⟩)).isOk = false ∧
      pack_numpy_array ⟨[2, 2, 2], .float64, []⟩ =
        .error (.unsupportedElementKind .float64)) ∧
    ((threejs_type (NpArray.dtype ⟨[2, 2, 2], .int32, []⟩)).isOk = true ∧
      3 ≤ NpArray.ndim ⟨[2, 2, 2], .int32, []⟩ ∧
      pack_numpy_array ⟨[2, 2, 2], .int32, []⟩ = .error (.unsupportedArrayRank 3)) :=
  ⟨⟨rfl, (c3_amended ⟨[2, 2, 2], .float64, []⟩).1 rfl⟩,
   ⟨rfl, by decide, (c3_amended ⟨[2, 2, 2], .int32, []⟩).2 rfl (by decide)⟩⟩

/-- Claim C4: for a rank-1 or rank-2 array of a supported element kind the
packer returns the `{itemSize, type, array, normalized}` block with
`itemSize` 1 (rank 1) or the first-axis size (rank 2), the name and
extension code from the fixed table, the raw bytes tagged with that code,
and `normalized = false`; and the table is exactly 0x12/0x15/0x16/0x17. -/
theorem c4_pack_block :
    (∀ (a : NpArray) (n : String) (c : Nat), (a.ndim = 1 ∨ a.ndim = 2) →
      threejs_type a.dtype = .ok (n, c) →
      pack_numpy_array a = .ok (.obj
        [("itemSize", .num (if a.ndim = 1 then (1 : Rat) else (a.shape.headD 0 : Rat))),
         ("type", .str n), ("array", .ext c a.data), ("normalized", .bool false)])) ∧
    threejs_type .uint8 = .ok ("Uint8Array", 0x12) ∧
    threejs_type .int32 = .ok ("Int32Array", 0x15) ∧
    threejs_type .uint32 = .ok ("Uint32Array", 0x16) ∧
    threejs_type .float32 = .ok ("Float32Array", 0x17) := by
  refine ⟨?_, rfl, rfl, rfl, rfl⟩
  intro a n c hrank ht
  rcases hrank with h1 | h2
  · simp [pack_numpy_array, ht, item_size, h1]
  · have h1 : ¬ (a.ndim = 1) := by omega
    simp [pack_numpy_array, ht, item_size, h1, h2]

theorem c4_witness :
    (NpArray.ndim ⟨[2, 3], .float32, [0, 0, 0, 0]⟩ = 1 ∨
      NpArray.ndim ⟨[2, 3], .float32, [0, 0, 0, 0]⟩ = 2) ∧
    threejs_type (NpArray.dtype ⟨[2, 3], .float32, [0, 0, 0, 0]⟩) =
      .ok ("Float32Array", 0x17) ∧
    pack_numpy_array ⟨[2, 3], .float32, [0, 0, 0, 0]⟩ = .ok (.obj
      [("itemSize", .num 2), ("type", .str "Float32Array"),
       ("array", .ext 0x17 [0, 0, 0, 0]), ("normalized", .bool false)]) :=
  ⟨Or.inr rfl, rfl, by
    have := c4_pack_block.1 ⟨[2, 3], .float32, [0, 0, 0, 0]⟩ "Float32Array" 0x17
      (Or.inr rfl) rfl
    simpa using this⟩

/-- Claim C5: the box-plus-basic-material scenario produces exactly the
three-part document from the spec (whatever the generated identifiers). -/
theorem c5_box_mesh_document (ug um uo : String) :
    Obj.serialize (Mesh uo (.box ug [.num 1, .num 2, .num 3])
        (MeshBasicMaterial.ofColor um 0xff0000)) = .ok
      { metadata := [("version", .num (9/2)), ("type", .str "Object")],
        geometries := some [[("uuid", .str ug), ("type", .str "BoxGeometry"),
          ("width", .num 1), ("height", .num 2), ("depth", .num 3)]],
        materials := some [[("uuid", .val (.str um)),
          ("type", .val (.str "MeshBasicMaterial")),
          ("color", .val (.num 16711680)), ("reflectivity", .val (.num (1/2)))]],
        textures := none,
        images := none,
        object := [("uuid", .str uo), ("type", .str "Mesh"),
          ("geometry", .str ug), ("material", .str um)] } := rfl

/-- Claim C6: the single-`set_transform` message serializes to exactly the
claimed structure, and both commands default their `path` to the empty
sequence when it is omitted. -/
theorem c6_set_transform_message :
    ViewerMessage.serialize [Command.setTransform (.list [.num 0, .num 0, .num 1])
        (.list [.num 0, .num 0, .num 0, .num 1]) (.list [.str "camera"])] =
      .ok [("commands", [[("type", .j (.str "set_transform")),
        ("path", .j (.list [.str "camera"])),
        ("position", .j (.list [.num 0, .num 0, .num 1])),
        ("quaternion", .j (.list [.num 0, .num 0, .num 0, .num 1]))]])] ∧
    (∀ p q : JValue, (setTransformDefaultPath p q).pathArg = .list []) ∧
    (∀ o : Obj, (setObjectDefaultPath o).pathArg = .list []) :=
  ⟨rfl, fun _ _ => rfl, fun _ => rfl⟩

/-- Claim C1, counterexample: the texture and image records ARE hoisted
into top-level `textures` and `images` lists of the document (the material
record only keeps the identifier string), refuting "not hoisted into
top-level lists" / "record nested inside the material record". -/
theorem c1_counterexample :
    Obj.serialize c1Obj = .ok c1Doc ∧
    ¬ (c1Doc.textures = none ∧ c1Doc.images = none) :=
  ⟨rfl, fun h => Option.noConfusion h.1⟩

/-- Claim C1, amended: the `materials` list has length 1 and its record's
`map` field is the identifier string of the embedded texture; the texture
record (whose `uuid` equals that identifier) is appended to a top-level
`textures` list created on demand, and the image record to a top-level
`images` list — hoisted, not nested inside the material record. -/
theorem c1_amended (ug um ut ui uo : String) (bs : Bytes) :
    Obj.serialize (Mesh uo (.box ug [.num 1, .num 2, .num 3])
        (.generic um [("map", .tex (.generic ut [("image", .img ⟨ui, bs⟩)]))])) = .ok
      { metadata := [("version", .num (9/2)), ("type", .str "Object")],
        geometries := some [[("uuid", .str ug), ("type", .str "BoxGeometry"),
          ("width", .num 1), ("height", .num 2), ("depth", .num 3)]],
        materials := some [[("uuid", .val (.str um)), ("map", .val (.str ut))]],
        textures := some [[("uuid", .val (.str ut)), ("image", .val (.str ui))]],
        images := some [[("uuid", .str ui),
          ("url", .str ("data:image/png;base64," ++ base64Encode bs))]],
        object := [("uuid", .str uo), ("type", .str "Mesh"),
          ("geometry", .str ug), ("material", .str um)] } := rfl

/-- Claim C2, counterexample: the accumulator `Object.serialize`
initializes does NOT contain four empty category lists — only
`geometries` and `materials` are initialized; `textures` and `images` are
absent until a `setdefault` creates them. -/
theorem c2_counterexample :
    (Obj.initData exObj).textures = none ∧
    (Obj.initData exObj).images = none ∧
    ¬ ((Obj.initData exObj).textures = some [] ∧ (Obj.initData exObj).images = some []) :=
  ⟨rfl, rfl, fun h => Option.noConfusion h.1⟩

/-- Claim C2, amended: `Object.serialize` initializes the accumulator with
TWO empty category lists (`geometries`, `materials`) plus the metadata and
object records; it flattens the geometry first and then the material; and
the resulting document has the claimed
`{metadata {version 4.5, type "Object"}, geometries, materials,
object {uuid, type, geometry, material}}` shape, with one geometry and one
material record. -/
theorem c2_amended :
    (∀ o : Obj, Obj.initData o =
      { metadata := [("version", .num (9/2)), ("type", .str "Object")],
        geometries := some [], materials := some [],
        textures := none, images := none,
        object := [("uuid", .str o.uuid), ("type", .str o.otype),
          ("geometry", .str o.geometry.uuid), ("material", .str o.material.uuid)] }) ∧
    (∀ (o : Obj) (doc : SceneDoc), Obj.serialize o = .ok doc →
      (∃ gu d1, o.geometry.serialize_in_object o.initData = .ok (gu, d1) ∧
        ∃ mu, o.material.serialize_in_object d1 = .ok (mu, doc)) ∧
      doc.metadata = [("version", .num (9/2)), ("type", .str "Object")] ∧
      doc.object = [("uuid", .str o.uuid), ("type", .str o.otype),
        ("geometry", .str o.geometry.uuid), ("material", .str o.material.uuid)] ∧
      (∃ gr, doc.geometries = some [gr]) ∧ (∃ mr, doc.materials = some [mr])) := by
  refine ⟨fun o => rfl, ?_⟩
  intro o doc h
  rcases hg : o.geometry.serialize_in_object o.initData with e | ⟨gu, d1⟩
  · simp only [Obj.serialize, hg] at h
    exact Except.noConfusion h
  · rcases hm : o.material.serialize_in_object d1 with e | ⟨mu, d2⟩
    · simp only [Obj.serialize, hg, hm] at h
      exact Except.noConfusion h
    · simp only [Obj.serialize, hg, hm] at h
      obtain rfl := Except.ok.inj h
      obtain ⟨-, hgmet, hgobj, ⟨gr, hgg, -⟩, hgmat, -, -⟩ := geo_sio_ok _ _ _ _ hg
      obtain ⟨-, hmmet, hmobj, hmgeo, ⟨mr, hmm, -⟩, -, -⟩ := mat_sio_ok _ _ _ _ hm
      refine ⟨⟨gu, d1, rfl, mu, hm⟩, ?_, ?_, ⟨gr, ?_⟩, ⟨mr, ?_⟩⟩
      · rw [hmmet, hgmet]
        rfl
      · rw [hmobj, hgobj]
        rfl
      · rw [hmgeo, hgg]
        rfl
      · rw [hmm, hgmat]
        rfl

theorem c2_witness :
    Obj.serialize exObj = .ok exDoc ∧
    ((∃ gu d1, exObj.geometry.serialize_in_object exObj.initData = .ok (gu, d1) ∧
        ∃ mu, exObj.material.serialize_in_object d1 = .ok (mu, exDoc)) ∧
      exDoc.metadata = [("version", .num (9/2)), ("type", .str "Object")] ∧
      exDoc.object = [("uuid", .str exObj.uuid), ("type", .str exObj.otype),
        ("geometry", .str exObj.geometry.uuid), ("material", .str exObj.material.uuid)] ∧
      (∃ gr, exDoc.geometries = some [gr]) ∧ (∃ mr, exDoc.materials = some [mr])) :=
  ⟨rfl, c2_amended.2 exObj exDoc rfl⟩

theorem OptListExtend.of_eq {α : Type} {o o' : Option (List α)} (h : o = o') :
    OptListExtend o o' := h ▸ OptListExtend.rfl o

/-- Claim C7, amended: provided the element's free-form properties do not
shadow the reserved `uuid` key, a successful `serialize_in_object` returns
the element's own identifier, appends exactly one record (bearing that
identifier in its `uuid` field) as the last element of the element's own
category list, and only extends the other lists (with the child records
flattened during the call). -/
theorem c7_amended (e : RElem) (d : SceneDoc) (u : String) (d' : SceneDoc)
    (hno : e.noUuidOverride = true) (h : e.serialize_in_object d = .ok (u, d')) :
    u = e.uuid ∧ appendedOwnRecord e d d' ∧ accumulatorExtended d d' := by
  cases e with
  | geo g =>
      obtain ⟨hu, hmet, hobj, ⟨r, hr, hru⟩, hmat, htex, himg⟩ := geo_sio_ok _ _ _ _ h
      refine ⟨hu, ⟨r, hr, hru⟩, hmet, hobj, ?_, OptListExtend.of_eq hmat.symm,
        OptListExtend.of_eq htex.symm, OptListExtend.of_eq himg.symm⟩
      rw [hr]
      exact OptListExtend.push _ _
  | mat m =>
      obtain ⟨hu, hmet, hobj, hgeo, ⟨r, hr, hru⟩, htex, himg⟩ := mat_sio_ok _ _ _ _ h
      refine ⟨hu, ⟨r, hr, hru hno⟩, hmet, hobj, OptListExtend.of_eq hgeo.symm,
        ?_, htex, himg⟩
      rw [hr]
      exact OptListExtend.push _ _
  | tex t =>
      obtain ⟨hu, hmet, hobj, hgeo, hmat, ⟨r, hr, hru⟩, himg⟩ := tex_sio_ok _ _ _ _ h
      refine ⟨hu, ⟨r, hr, hru hno⟩, hmet, hobj, OptListExtend.of_eq hgeo.symm,
        OptListExtend.of_eq hmat.symm, ?_, himg⟩
      rw [hr]
      exact OptListExtend.push _ _
  | img i =>
      obtain ⟨rfl, rfl⟩ := Prod.mk.injEq .. ▸ (Except.ok.inj h)
      exact ⟨rfl, ⟨i.serialize, rfl, rfl⟩,
        rfl, rfl, OptListExtend.rfl _, OptListExtend.rfl _, OptListExtend.rfl _,
        OptListExtend.push _ _⟩

/-- Claim C7, counterexample: a generic material whose property mapping
contains the key `uuid` produces a record whose `uuid` field is the
property value, NOT the element's identifier (which the call still
returns). -/
theorem c7_counterexample :
    RElem.serialize_in_object c7Elem c7Start =
      .ok ("m1", { c7Start with materials := some [[("uuid", .val (.str "evil"))]] }) ∧
    RElem.uuid c7Elem = "m1" ∧
    dictLookup [("uuid", MatProp.val (.str "evil"))] "uuid" = some (.val (.str "evil")) ∧
    ¬ (dictLookup [("uuid", MatProp.val (.str "evil"))] "uuid" =
      some (.val (.str "m1"))) := by
  refine ⟨rfl, rfl, rfl, ?_⟩
  intro h
  simp [dictLookup] at h

theorem c7_witness :
    RElem.noUuidOverride (.img ⟨"i1", [1, 2, 3]⟩) = true ∧
    RElem.serialize_in_object (.img ⟨"i1", [1, 2, 3]⟩) c7Start =
      .ok ("i1", { c7Start with images := some [[("uuid", .str "i1"),
        ("url", .str ("data:image/png;base64," ++ base64Encode [1, 2, 3]))]] }) ∧
    ("i1" = RElem.uuid (.img ⟨"i1", [1, 2, 3]⟩) ∧
      appendedOwnRecord (.img ⟨"i1", [1, 2, 3]⟩) c7Start
        { c7Start with images := some [[("uuid", .str "i1"),
          ("url", .str ("data:image/png;base64," ++ base64Encode [1, 2, 3]))]] } ∧
      accumulatorExtended c7Start
        { c7Start with images := some [[("uuid", .str "i1"),
          ("url", .str ("data:image/png;base64," ++ base64Encode [1, 2, 3]))]] }) :=
  ⟨rfl, rfl, c7_amended (.img ⟨"i1", [1, 2, 3]⟩) c7Start "i1" _ rfl rfl⟩

theorem dictLookup_map {α β : Type} (f : α → β) (l : List (String × α)) (k : String) :
    dictLookup (l.map (fun p => (p.1, f p.2))) k = (dictLookup l k).map f := by
  induction l with
  | nil => rfl
  | cons p rest ih =>
      obtain ⟨a, b⟩ := p
      by_cases h : a = k <;> simp [dictLookup, h, ih]

theorem map_keys_nodup {α β : Type} (f : α → β) (l : List (String × α))
    (h : (l.map Prod.fst).Nodup) :
    ((l.map (fun p => (p.1, f p.2))).map Prod.fst).Nodup := by
  simpa [List.map_map, Function.comp] using h

/-- Claim C8: for a generic material (resp. generic texture) whose
property mapping holds a texture under `map` (resp. an image under
`image`), `serialize` substitutes the flattened element's identifier
string only on the fresh dict it builds: the method leaves
`self.properties` untouched, which still maps the reserved key to the
original element object, while the emitted record carries the identifier
string. -/
theorem c8_no_mutation :
    (∀ (u : String) (props : List (String × MatProp)) (t : Texture) (d : SceneDoc)
      (rec : MatRec) (d' : SceneDoc) (props' : List (String × MatProp)),
      (props.map Prod.fst).Nodup →
      dictLookup props "map" = some (.tex t) →
      GenericMaterial.serialize u props d = .ok (rec, d', props') →
      props' = props ∧ dictLookup props' "map" = some (.tex t) ∧
      dictLookup rec "map" = some (.val (.str t.uuid))) ∧
    (∀ (u : String) (props : List (String × TexProp)) (i : PngImage) (d : SceneDoc)
      (rec : TexRec) (d' : SceneDoc) (props' : List (String × TexProp)),
      (props.map Prod.fst).Nodup →
      dictLookup props "image" = some (.img i) →
      GenericTexture.serialize u props d = .ok (rec, d', props') →
      props' = props ∧ dictLookup props' "image" = some (.img i) ∧
      dictLookup rec "image" = some (.val (.str i.uuid))) := by
  constructor
  · intro u props t d rec d' props' hnd hmap h
    have hdata : dictLookup (dictUpdate [("uuid", MatProp.val (.str u))] props) "map" =
        some (.tex t) :=
      dictLookup_dictUpdate_of_lookup _ _ _ _ hnd hmap
    rcases ht : t.serialize_in_object d with e | ⟨tu, dt⟩
    · simp only [GenericMaterial.serialize, hdata, ht] at h
      exact Except.noConfusion h
    · simp only [GenericMaterial.serialize, hdata, ht] at h
      simp only [Except.ok.injEq, Prod.mk.injEq] at h
      obtain ⟨rfl, rfl, rfl⟩ := h
      obtain rfl : tu = t.uuid := (tex_sio_ok _ _ _ _ ht).1
      exact ⟨rfl, hmap, dictLookup_dictInsert_self _ _ _⟩
  · intro u props i d rec d' props' hnd hmap h
    have hdata : dictLookup (dictUpdate [("uuid", TexProp.val (.str u))] props) "image" =
        some (.img i) :=
      dictLookup_dictUpdate_of_lookup _ _ _ _ hnd hmap
    simp only [GenericTexture.serialize, hdata, PngImage.serialize_in_object] at h
    simp only [Except.ok.injEq, Prod.mk.injEq] at h
    obtain ⟨rfl, rfl, rfl⟩ := h
    exact ⟨rfl, hmap, dictLookup_dictInsert_self _ _ _⟩

theorem c8_witness :
    (([("map", MatProp.tex (.generic "t1" []))].map Prod.fst).Nodup ∧
      dictLookup [("map", MatProp.tex (.generic "t1" []))] "map" =
        some (.tex (.generic "t1" [])) ∧
      GenericMaterial.serialize "m1" [("map", MatProp.tex (.generic "t1" []))] c7Start =
        .ok ([("uuid", .val (.str "m1")), ("map", .val (.str "t1"))],
          { c7Start with textures := some [[("uuid", .val (.str "t1"))]] },
          [("map", MatProp.tex (.generic "t1" []))]) ∧
      ([("map", MatProp.tex (.generic "t1" []))] =
          [("map", MatProp.tex (.generic "t1" []))] ∧
        dictLookup [("map", MatProp.tex (.generic "t1" []))] "map" =
          some (.tex (.generic "t1" [])) ∧
        dictLookup [("uuid", MatProp.val (.str "m1")), ("map", .val (.str "t1"))] "map" =
          some (.val (.str "t1")))) :=
  ⟨by decide, rfl, rfl,
    c8_no_mutation.1 "m1" _ (.generic "t1" []) c7Start _ _ _ (by decide) rfl rfl⟩

/-- Claim C9: `MeshMaterial.serialize` merges the free-form extras into
the record after writing the reserved fields, so whenever an extra's key
(other than `map`, which is assigned later) collides with anything already
present — `uuid`, `type`, `color` or `reflectivity` included — the
extra's value wins. -/
theorem c9_extras_override (u mtype : String) (color reflectivity : JValue)
    (map : Option Texture) (extras : List (String × JValue)) (d : SceneDoc)
    (rec : MatRec) (d' : SceneDoc) (k : String) (v : JValue)
    (hnd : (extras.map Prod.fst).Nodup) (hkm : k ≠ "map")
    (hk : dictLookup extras k = some v)
    (h : MeshMaterial.serialize u mtype color reflectivity map extras d = .ok (rec, d')) :
    dictLookup rec k = some (.val v) := by
  have hk' : dictLookup (extras.map (fun p => (p.1, MatProp.val p.2))) k =
      some (.val v) := by
    rw [dictLookup_map, hk]
    rfl
  have hdata : dictLookup (dictUpdate [("uuid", MatProp.val (.str u)),
      ("type", MatProp.val (.str mtype)), ("color", MatProp.val color),
      ("reflectivity", MatProp.val reflectivity)]
      (extras.map (fun p => (p.1, MatProp.val p.2)))) k = some (.val v) :=
    dictLookup_dictUpdate_of_lookup _ _ _ _ (map_keys_nodup _ _ hnd) hk'
  cases map with
  | none =>
      simp only [MeshMaterial.serialize] at h
      simp only [Except.ok.injEq, Prod.mk.injEq] at h
      obtain ⟨rfl, rfl⟩ := h
      exact hdata
  | some t =>
      rcases ht : t.serialize_in_object d with e | ⟨tu, dt⟩
      · simp only [MeshMaterial.serialize, ht] at h
        exact Except.noConfusion h
      · simp only [MeshMaterial.serialize, ht] at h
        simp only [Except.ok.injEq, Prod.mk.injEq] at h
        obtain ⟨rfl, rfl⟩ := h
        rw [dictLookup_dictInsert_ne _ _ _ _ (Ne.symm hkm)]
        exact hdata

theorem c9_witness :
    (([("color", JValue.num 99)].map Prod.fst).Nodup ∧
      "color" ≠ "map" ∧
      dictLookup [("color", JValue.num 99)] "color" = some (.num 99) ∧
      MeshMaterial.serialize "m1" "MeshPhongMaterial" (.num 1) (.num 2) none
        [("color", .num 99)] c7Start =
        .ok ([("uuid", .val (.str "m1")), ("type", .val (.str "MeshPhongMaterial")),
          ("color", .val (.num 99)), ("reflectivity", .val (.num 2))], c7Start)) ∧
    dictLookup [("uuid", MatProp.val (.str "m1")),
      ("type", MatProp.val (.str "MeshPhongMaterial")),
      ("color", MatProp.val (.num 99)), ("reflectivity", MatProp.val (.num 2))]
      "color" = some (.val (.num 99)) :=
  ⟨⟨by decide, by decide, rfl, rfl⟩,
    c9_extras_override "m1" "MeshPhongMaterial" (.num 1) (.num 2) none
      [("color", .num 99)] c7Start _ c7Start "color" (.num 99)
      (by decide) (by decide) rfl rfl⟩

/-- Claim C10: when a mesh material was built with a texture map, the
`map` key is assigned after the extras are merged, so the record's `map`
field always carries the flattened texture's identifier string, even if
the extras contain a key `map`; with no texture map, nothing is flattened
(the accumulator is returned untouched) and an extra named `map` is
emitted verbatim as a plain value. -/
theorem c10_map_assignment :
    (∀ (u mtype : String) (color reflectivity : JValue) (t : Texture)
      (extras : List (String × JValue)) (d : SceneDoc) (rec : MatRec) (d' : SceneDoc),
      MeshMaterial.serialize u mtype color reflectivity (some t) extras d = .ok (rec, d') →
      dictLookup rec "map" = some (.val (.str t.uuid))) ∧
    (∀ (u mtype : String) (color reflectivity : JValue)
      (extras : List (String × JValue)) (d : SceneDoc),
      ∃ rec, MeshMaterial.serialize u mtype color reflectivity none extras d =
        .ok (rec, d) ∧
      ((extras.map Prod.fst).Nodup → ∀ v, dictLookup extras "map" = some v →
        dictLookup rec "map" = some (.val v))) := by
  constructor
  · intro u mtype color reflectivity t extras d rec d' h
    rcases ht : t.serialize_in_object d with e | ⟨tu, dt⟩
    · simp only [MeshMaterial.serialize, ht] at h
      exact Except.noConfusion h
    · simp only [MeshMaterial.serialize, ht] at h
      simp only [Except.ok.injEq, Prod.mk.injEq] at h
      obtain ⟨rfl, rfl⟩ := h
      obtain rfl : tu = t.uuid := (tex_sio_ok _ _ _ _ ht).1
      exact dictLookup_dictInsert_self _ _ _
  · intro u mtype color reflectivity extras d
    refine ⟨_, rfl, ?_⟩
    intro hnd v hv
    have hv' : dictLookup (extras.map (fun p => (p.1, MatProp.val p.2))) "map" =
        some (.val v) := by
      rw [dictLookup_map, hv]
      rfl
    exact dictLookup_dictUpdate_of_lookup _ _ _ _ (map_keys_nodup _ _ hnd) hv'

theorem c10_witness :
    (MeshMaterial.serialize "m1" "MeshToonMaterial" (.num 1) (.num 2)
        (some (.generic "t1" [])) [("map", .str "shadowed")] c7Start =
      .ok ([("uuid", .val (.str "m1")), ("type", .val (.str "MeshToonMaterial")),
        ("color", .val (.num 1)), ("reflectivity", .val (.num 2)),
        ("map", .val (.str "t1"))],
        { c7Start with textures := some [[("uuid", .val (.str "t1"))]] }) ∧
      dictLookup [("uuid", MatProp.val (.str "m1")),
        ("type", MatProp.val (.str "MeshToonMaterial")),
        ("color", MatProp.val (.num 1)), ("reflectivity", MatProp.val (.num 2)),
        ("map", MatProp.val (.str "t1"))] "map" = some (.val (.str "t1"))) ∧
    (∃ rec, MeshMaterial.serialize "m2" "MeshLambertMaterial" (.num 1) (.num 2) none
        [("map", .str "plain")] c7Start = .ok (rec, c7Start) ∧
      (([("map", JValue.str "plain")].map Prod.fst).Nodup →
        ∀ v, dictLookup [("map", JValue.str "plain")] "map" = some v →
          dictLookup rec "map" = some (.val v))) :=
  ⟨⟨rfl, c10_map_assignment.1 "m1" "MeshToonMaterial" (.num 1) (.num 2)
      (.generic "t1" []) [("map", .str "shadowed")] c7Start _ _ rfl⟩,
    c10_map_assignment.2 "m2" "MeshLambertMaterial" (.num 1) (.num 2)
      [("map", .str "plain")] c7Start⟩
